import Mathlib

/-!
Verification of the LRU-list traversal helpers in `drgn_tools/list_lru.py`.

The Python source interprets kernel memory through the drgn API.  We embed it
shallowly: kernel structures become Lean records whose `Option` fields model
`has_member` probing (`none` = the struct type does not expose the field) and
pointer nullness, list heads become `List Nat` of entry identities, and the
generator functions become functions returning `Except LruErr (List Nat)` —
`.error` models a raised drgn exception, `.ok l` models the full sequence of
yielded entries.
-/

namespace ListLruSpec

/-- Errors a traversal can raise: accessing a struct member that the probed
type does not expose (drgn `AttributeError`/`LookupError`), or dereferencing a
null pointer (drgn `FaultError`). -/
inductive LruErr where
  | missingField (name : String)
  | nullDeref
deriving DecidableEq, Repr

/-- Embeds `struct list_lru_one`: a sublist head plus its cached item count
(`nr_items` is a C `long`, hence `Int`).  The list holds entry identities. -/
structure LruOne where
  nr_items : Int
  list : List Nat
deriving DecidableEq, Repr

/-- Embeds `struct list_lru_memcg` (v5.13+ sparse-map layout): one
`list_lru_one` per NUMA node, indexed by node id. -/
structure ListLruMemcg where
  node : Nat → LruOne

/-- Embeds one element of the per-node array `lru.node[]`
(`struct list_lru_node`): the pre-v5.13 per-memcg array pointer `memcg_lrus`
(`none` = NULL pointer, `some tbl` = array of `list_lru_one` indexed by memcg
index) and the plain `lru.list` head used when the LRU is not memcg aware. -/
structure ListLruNode where
  memcg_lrus : Option (Nat → LruOne)
  lru : LruOne

/-- The per-node array `lru.node`.  `has_memcg_lrus` is the type-level
`has_member(lru.node, "memcg_lrus")` probe result (constant across
elements); `elems` indexes the array by NUMA node id. -/
structure NodeArray where
  has_memcg_lrus : Bool
  elems : Nat → ListLruNode

/-- Embeds the uek7 `ext` replacement of `node` (`UEK_KABI_REPLACE`): carries
the xarray and a per-node array used in the non-memcg-aware path. -/
structure ListLruExt where
  xa : List (Nat × ListLruMemcg)
  node : Nat → ListLruNode

/-- Embeds `struct list_lru *`.  Each `Option` field records whether the
probed struct type exposes that member (`has_member`), mirroring the
capability probing in the source. The xarray is an association list of
(memcg index, `list_lru_memcg`) pairs in the map's native ascending order. -/
structure ListLru where
  memcg_aware : Option Bool
  ext : Option ListLruExt
  xa : Option (List (Nat × ListLruMemcg))
  node : Option NodeArray

/-- Global program state consumed by the traversal: the NUMA node-online
bitmap (`N_ONLINE`, bits `0 ..< maxNumNodes`) and the pre-v5.13 global
`memcg_nr_cache_ids`. -/
structure Prog where
  maxNumNodes : Nat
  nodeOnline : Nat → Bool
  memcg_nr_cache_ids : Nat

/-- Embeds `for_each_online_node(prog)`: scans the node-online bitmap bits in
ascending order and yields the set node ids. -/
def for_each_online_node (p : Prog) : List Nat :=
  (List.range p.maxNumNodes).filter p.nodeOnline

/-- Embeds `node_state(nid, prog["N_ONLINE"])`: tests the node bit in the
online bitmap. -/
def node_state (p : Prog) (nid : Nat) : Bool :=
  decide (nid < p.maxNumNodes) && p.nodeOnline nid

/-- Embeds lines 53-54 / 113-114 of the source: the memcg-awareness probe
`(has_member(lru, "memcg_aware") and lru.memcg_aware) or
 (has_member(lru.node, "memcg_lrus") and lru.node[0].memcg_lrus)`.
Python `or`/`and` short-circuit: when the first disjunct is falsy the second
accesses `lru.node`, which raises if the type lacks that member. -/
def memcgAwareCheck (lru : ListLru) : Except LruErr Bool :=
  match lru.memcg_aware with
  | some true => .ok true
  | _ =>
    match lru.node with
    | none => .error (.missingField "node")
    | some na =>
      if na.has_memcg_lrus then .ok ((na.elems 0).memcg_lrus.isSome)
      else .ok false

/-- Embeds `has_member(lru, "ext") or has_member(lru, "xa")` (line 55/115). -/
def hasExtOrXa (lru : ListLru) : Bool :=
  lru.ext.isSome || lru.xa.isSome

/-- Embeds lines 57-62 / 117-122: pick the xarray, preferring `lru.ext.xa`
(uek7) over `lru.xa` (uek8). -/
def getXa (lru : ListLru) : Except LruErr (List (Nat × ListLruMemcg)) :=
  match lru.ext with
  | some e => .ok e.xa
  | none =>
    match lru.xa with
    | some x => .ok x
    | none => .error (.missingField "xa")

/-- Concatenation of a list of entry lists (the entries yielded by a sequence
of sublist walks, in order). -/
def catLists : List (List Nat) → List Nat
  | [] => []
  | x :: xs => x ++ catLists xs

/-- Embeds the body of the sparse-map branch for one NUMA node (lines 65-72):
walk the xarray in native order and, for each `list_lru_memcg`, yield the
node's sublist when its cached `nr_items` count is positive. -/
def walkXaNode (xa : List (Nat × ListLruMemcg)) (nid : Nat) : List Nat :=
  catLists (xa.map (fun kv =>
    if 0 < (kv.2.node nid).nr_items then (kv.2.node nid).list else []))

/-- Embeds the pre-v5.13 array-layout loop body for one NUMA node
(lines 77-84): for each index in `is` read
`lru.node[nid].memcg_lrus.lru[i].list` (raising if the member is missing or
the per-node pointer is NULL) and yield its entries unless `list_empty`. -/
def arrayWalkIdx (lru : ListLru) (nid : Nat) : List Nat → Except LruErr (List Nat)
  | [] => .ok []
  | i :: rest =>
    match lru.node with
    | none => .error (.missingField "node")
    | some na =>
      if na.has_memcg_lrus then
        match (na.elems nid).memcg_lrus with
        | none => .error .nullDeref
        | some tbl =>
          match arrayWalkIdx lru nid rest with
          | .error e => .error e
          | .ok t =>
            .ok ((if (tbl i).list.isEmpty then [] else (tbl i).list) ++ t)
      else .error (.missingField "memcg_lrus")

/-- Embeds the non-memcg-aware per-node read (lines 89-92 / 144-147):
`lru.ext.node[nid].lru.list` when `ext` exists, else
`lru.node[nid].lru.list`. -/
def plainNodeList (lru : ListLru) (nid : Nat) : Except LruErr (List Nat) :=
  match lru.ext with
  | some e => .ok ((e.node nid).lru.list)
  | none =>
    match lru.node with
    | some na => .ok ((na.elems nid).lru.list)
    | none => .error (.missingField "node")

/-- Layout dispatch shared by the traversal: resolves, per the source's probe
order, the function that walks one NUMA node.  Type-level probes happen once
before the node loop (as in the source); per-node/per-index accesses stay
inside the returned function. -/
def layoutNodeFn (p : Prog) (lru : ListLru) :
    Except LruErr (Nat → Except LruErr (List Nat)) :=
  match memcgAwareCheck lru with
  | .error e => .error e
  | .ok true =>
    if hasExtOrXa lru then
      match getXa lru with
      | .error e => .error e
      | .ok xa => .ok (fun nid => .ok (walkXaNode xa nid))
    else
      .ok (fun nid => arrayWalkIdx lru nid (List.range p.memcg_nr_cache_ids))
  | .ok false => .ok (fun nid => plainNodeList lru nid)

/-- Sequences the per-node walks over a list of node ids, concatenating the
yielded entries; the first raised error aborts the generator. -/
def foldNodes (f : Nat → Except LruErr (List Nat)) : List Nat → Except LruErr (List Nat)
  | [] => .ok []
  | n :: rest =>
    match f n with
    | .error e => .error e
    | .ok h =>
      match foldNodes f rest with
      | .error e => .error e
      | .ok t => .ok (h ++ t)

/-- Embeds `list_lru_for_each_entry` (lines 41-94): iterate every entry of
the LRU, grouped by online NUMA node in ascending node-id order. -/
def list_lru_for_each_entry (p : Prog) (lru : ListLru) : Except LruErr (List Nat) :=
  match layoutNodeFn p lru with
  | .error e => .error e
  | .ok f => foldNodes f (for_each_online_node p)

/-- The entries `list_lru_for_each_entry` draws from one NUMA node: the same
layout dispatch applied to a single node id. -/
def nodeEntries (p : Prog) (lru : ListLru) (nid : Nat) : Except LruErr (List Nat) :=
  match layoutNodeFn p lru with
  | .error e => .error e
  | .ok f => f nid

/-- Embeds `xa_load(xa, mindx)`: point lookup in the sparse map, `none` when
the index holds no (non-NULL) entry. -/
def xa_load : List (Nat × ListLruMemcg) → Int → Option ListLruMemcg
  | [], _ => none
  | kv :: rest, m => if (kv.1 : Int) = m then some kv.2 else xa_load rest m

/-- Embeds `list_lru_from_memcg_node_for_each_entry` (lines 97-149): iterate
the entries of the (memcg index, NUMA node) sublist.  The node-online test
guards everything; the sparse-map branch uses `xa_load`, the pre-v5.13 array
branch range-checks the index against `memcg_nr_cache_ids`, and a
non-memcg-aware LRU ignores the index entirely. -/
def list_lru_from_memcg_node_for_each_entry (p : Prog) (mindx : Int) (nid : Nat)
    (lru : ListLru) : Except LruErr (List Nat) :=
  if node_state p nid then
    match memcgAwareCheck lru with
    | .error e => .error e
    | .ok true =>
      if hasExtOrXa lru then
        match getXa lru with
        | .error e => .error e
        | .ok xa =>
          match xa_load xa mindx with
          | none => .ok []
          | some memcg =>
            if 0 < (memcg.node nid).nr_items then .ok (memcg.node nid).list
            else .ok []
      else
        if 0 ≤ mindx ∧ mindx < (p.memcg_nr_cache_ids : Int) then
          match lru.node with
          | none => .error (.missingField "node")
          | some na =>
            if na.has_memcg_lrus then
              match (na.elems nid).memcg_lrus with
              | none => .error .nullDeref
              | some tbl =>
                if (tbl mindx.toNat).list.isEmpty then .ok []
                else .ok (tbl mindx.toNat).list
            else .error (.missingField "memcg_lrus")
        else .ok []
    | .ok false => plainNodeList lru nid
  else .ok []

/-! ## Ownership resolver (`list_lru_kmem_to_memcgidx`, lines 151-203) -/

/-- `MEMCG_DATA_OBJCGS` (line 151): low tag bit marking the page's accounting
word as a pointer to a per-object `obj_cgroup` array. -/
def MEMCG_DATA_OBJCGS : Nat := 1

/-- `MEMCG_DATA_KMEM` (line 152): the kmem-style tag value; the source reads
the word "for the MEMCG_DATA_KMEM test" but never handles this tag. -/
def MEMCG_DATA_KMEM : Nat := 2

/-- Embeds `struct mem_cgroup`: only `kmemcg_id` is read. -/
structure MemCgroup where
  kmemcg_id : Int
deriving DecidableEq, Repr

/-- Embeds the legacy `memcg_params` accounting chain of a
`struct kmem_cache`: `memcg_params.memcg` (dereferenced without a null check
by the source). -/
structure MemcgParams where
  memcg : MemCgroup
deriving DecidableEq, Repr

/-- Embeds `struct kmem_cache`: `size` is the per-slot stride the source
divides by; `object_size` is the kernel's original-object-size field, carried
here only so the spec's slot formula can be stated against it. -/
structure SlabCache where
  size : Nat
  object_size : Nat
  memcg_params : MemcgParams
deriving DecidableEq, Repr

/-- Embeds a (compound head) `struct page` descriptor.  Outer `Option`s model
`has_member` probing; the inner `Option` of `slab_cache` models pointer
nullness.  `slab_slab_cache` is the `slab_cache` read through the v5.17
`struct slab` reinterpretation of the same descriptor (`none` = NULL). -/
structure Page where
  memcg_data : Option Nat
  obj_cgroups : Option Nat
  slab_cache : Option (Option SlabCache)
  flags : Nat
  slab_slab_cache : Option SlabCache

/-- The kernel-memory view consumed by the ownership resolver:
`virt_to_page`/`compound_head`/`page_to_virt` address translation, the page
descriptors, the contents of `obj_cgroup` arrays (`objcg_memcg base idx` is
the `memcg` pointer of `((struct obj_cgroup **)base)[idx]`, `none` = NULL),
and the `PG_slab` flag bit position. -/
structure PageState where
  virt_to_page : Nat → Nat
  compound_head : Nat → Nat
  pages : Nat → Page
  page_to_virt : Nat → Nat
  objcg_memcg : Nat → Int → Option MemCgroup
  pg_slab : Nat

/-- Embeds lines 168-173: if the page exposes `memcg_data` read it, else fall
back to `obj_cgroups` cast to an unsigned long; `none` means neither member
exists (pre-v5.13 descriptor). -/
def readMemcgData (pg : Page) : Option Nat :=
  match pg.memcg_data with
  | some v => some v
  | none => pg.obj_cgroups

/-- Embeds lines 177-194 once a slab cache is in hand: compute the object's
slot `(kvm - pvm) / slab_cache.size` (C truncating division), index the
`obj_cgroup` array at `base`, and return `-1` for a NULL `memcg` else its
`kmemcg_id`. -/
def objSlot (st : PageState) (base pvm : Nat) (sc : SlabCache) (kvm : Nat) :
    Except LruErr Int :=
  let objoffset : Int := Int.tdiv ((kvm : Int) - (pvm : Int)) (sc.size : Int)
  match st.objcg_memcg base objoffset with
  | none => .ok (-1)
  | some g => .ok g.kmemcg_id

/-- Embeds lines 175-194, the branch taken when the accounting word has the
`MEMCG_DATA_OBJCGS` tag bit set: strip the tag to get the array base, resolve
the slab cache (directly, or through the v5.17 `struct slab` view guarded by
the `PG_slab` flag — returning `-1` when the flag is unset), then look up the
object's slot. -/
def taggedCase (st : PageState) (cpage memcg_data kvm : Nat) : Except LruErr Int :=
  let pg := st.pages cpage
  let base := memcg_data - MEMCG_DATA_OBJCGS
  let pvm := st.page_to_virt cpage
  match pg.slab_cache with
  | some none => .error .nullDeref
  | some (some sc) => objSlot st base pvm sc kvm
  | none =>
    if pg.flags &&& (1 <<< st.pg_slab) ≠ 0 then
      match pg.slab_slab_cache with
      | none => .error .nullDeref
      | some sc => objSlot st base pvm sc kvm
    else .ok (-1)

/-- Embeds `list_lru_kmem_to_memcgidx` (lines 154-203): map the address of a
slab-allocated object to the owning memcg index, `-1` when not found. -/
def list_lru_kmem_to_memcgidx (st : PageState) (kvm : Nat) : Except LruErr Int :=
  let cpage := st.compound_head (st.virt_to_page kvm)
  let pg := st.pages cpage
  match readMemcgData pg with
  | some memcg_data =>
    if memcg_data &&& MEMCG_DATA_OBJCGS ≠ 0 then taggedCase st cpage memcg_data kvm
    else .ok (-1)
  | none =>
    match pg.slab_cache with
    | none => .error (.missingField "slab_cache")
    | some none => .ok (-1)
    | some (some sc) => .ok sc.memcg_params.memcg.kmemcg_id

/-! ## Infrastructure lemmas -/

theorem mem_catLists {e : Nat} {L : List (List Nat)} :
    e ∈ catLists L ↔ ∃ s ∈ L, e ∈ s := by
  induction L with
  | nil => simp [catLists]
  | cons x xs ih => simp [catLists, ih]

theorem foldNodes_ok_pointwise (f : Nat → Except LruErr (List Nat))
    (g : Nat → List Nat) :
    ∀ ns : List Nat, (∀ n ∈ ns, f n = .ok (g n)) →
      foldNodes f ns = .ok (catLists (ns.map g)) := by
  intro ns
  induction ns with
  | nil => intro _; rfl
  | cons n rest ih =>
    intro h
    have hn : f n = .ok (g n) := h n (by simp)
    have hr := ih (fun m hm => h m (by simp [hm]))
    simp [foldNodes, hn, hr, catLists]

theorem foldNodes_ok_decomp (f : Nat → Except LruErr (List Nat)) :
    ∀ (ns : List Nat) (l : List Nat), foldNodes f ns = .ok l →
      ∃ g : Nat → List Nat, (∀ n ∈ ns, f n = .ok (g n)) ∧ l = catLists (ns.map g) := by
  intro ns
  induction ns with
  | nil =>
    intro l hl
    refine ⟨fun _ => [], by simp, ?_⟩
    have : ([] : List Nat) = l := by simpa [foldNodes] using hl
    simp [← this, catLists]
  | cons n rest ih =>
    intro l hl
    cases hfn : f n with
    | error e => simp [foldNodes, hfn] at hl
    | ok h =>
      cases hrest : foldNodes f rest with
      | error e => simp [foldNodes, hfn, hrest] at hl
      | ok t =>
        have hlt : l = h ++ t := by
          have := hl
          simp [foldNodes, hfn, hrest] at this
          exact this.symm
        obtain ⟨g, hg, ht⟩ := ih t hrest
        refine ⟨fun x => if x = n then h else g x, ?_, ?_⟩
        · intro m hm
          rcases List.mem_cons.mp hm with rfl | hm'
          · simp [hfn]
          · by_cases hxn : m = n
            · have hgm := hg m hm'
              subst hxn
              rw [hfn] at hgm
              have : h = g m := by
                injection hgm
              simp [← this, hfn]
            · simp [hxn, hg m hm']
        · have hmap : rest.map (fun x => if x = n then h else g x) = rest.map g := by
            apply List.map_congr_left
            intro m hm
            by_cases hxn : m = n
            · have hgm := hg m hm
              subst hxn
              rw [hfn] at hgm
              have : h = g m := by injection hgm
              simp [this]
            · simp [hxn]
          simp [hlt, ht, catLists, hmap]

theorem foldNodes_block_subset (f : Nat → Except LruErr (List Nat))
    (ns : List Nat) (l : List Nat) (hl : foldNodes f ns = .ok l)
    {n : Nat} {b : List Nat} (hn : n ∈ ns) (hb : f n = .ok b) :
    ∀ e ∈ b, e ∈ l := by
  obtain ⟨g, hg, rfl⟩ := foldNodes_ok_decomp f ns l hl
  have hgn := hg n hn
  rw [hb] at hgn
  have hbg : b = g n := by injection hgn
  intro e he
  rw [mem_catLists]
  exact ⟨g n, List.mem_map_of_mem _ hn, hbg ▸ he⟩

theorem foldNodes_mem (f : Nat → Except LruErr (List Nat))
    (ns : List Nat) (l : List Nat) (hl : foldNodes f ns = .ok l)
    {e : Nat} (he : e ∈ l) :
    ∃ n ∈ ns, ∃ b, f n = .ok b ∧ e ∈ b := by
  obtain ⟨g, hg, rfl⟩ := foldNodes_ok_decomp f ns l hl
  rw [mem_catLists] at he
  obtain ⟨s, hs, hes⟩ := he
  obtain ⟨n, hn, rfl⟩ := List.mem_map.mp hs
  exact ⟨n, hn, g n, hg n hn, hes⟩

theorem node_state_iff_mem (p : Prog) (n : Nat) :
    node_state p n = true ↔ n ∈ for_each_online_node p := by
  simp [node_state, for_each_online_node, List.mem_filter, List.mem_range,
    and_comm]

theorem for_each_online_node_sorted (p : Prog) :
    List.Sorted (· < ·) (for_each_online_node p) :=
  List.Pairwise.sublist (List.filter_sublist _) (List.pairwise_lt_range _)

theorem xa_load_of_mem_nodup {xa : List (Nat × ListLruMemcg)} {k : Nat}
    {g : ListLruMemcg} (hnd : (xa.map Prod.fst).Nodup) (hmem : (k, g) ∈ xa) :
    xa_load xa (k : Int) = some g := by
  induction xa with
  | nil => cases hmem
  | cons kv rest ih =>
    rcases List.mem_cons.mp hmem with heq | hmem'
    · rw [← heq]
      simp [xa_load]
    · have hknd := List.nodup_cons.mp
        (show (kv.1 :: rest.map Prod.fst).Nodup from hnd)
      have hne : ¬((kv.1 : Int) = (k : Int)) := by
        intro habs
        have hk1 : kv.1 = k := by exact_mod_cast habs
        have : k ∈ rest.map Prod.fst :=
          List.mem_map_of_mem Prod.fst hmem'
        exact hknd.1 (hk1 ▸ this)
      rw [xa_load, if_neg hne]
      exact ih hknd.2 hmem'

theorem xa_load_mem {xa : List (Nat × ListLruMemcg)} {m : Int} {g : ListLruMemcg}
    (h : xa_load xa m = some g) :
    ∃ k : Nat, (k, g) ∈ xa ∧ (k : Int) = m := by
  induction xa with
  | nil => cases h
  | cons kv rest ih =>
    by_cases hk : ((kv.1 : Nat) : Int) = m
    · rw [xa_load, if_pos hk] at h
      have : kv.2 = g := by injection h
      exact ⟨kv.1, by simp [← this], hk⟩
    · rw [xa_load, if_neg hk] at h
      obtain ⟨k, hmem, hkm⟩ := ih h
      exact ⟨k, List.mem_cons_of_mem _ hmem, hkm⟩

theorem mem_walkXaNode {xa : List (Nat × ListLruMemcg)} {nid e : Nat} :
    e ∈ walkXaNode xa nid ↔
      ∃ kv ∈ xa, 0 < (kv.2.node nid).nr_items ∧ e ∈ (kv.2.node nid).list := by
  unfold walkXaNode
  rw [mem_catLists]
  constructor
  · rintro ⟨s, hs, hes⟩
    obtain ⟨kv, hkv, rfl⟩ := List.mem_map.mp hs
    by_cases hpos : 0 < (kv.2.node nid).nr_items
    · exact ⟨kv, hkv, hpos, by simpa [hpos] using hes⟩
    · simp [hpos] at hes
  · rintro ⟨kv, hkv, hpos, he⟩
    exact ⟨_, List.mem_map_of_mem _ hkv, by simp [hpos, he]⟩

theorem arrayWalkIdx_ok_of {lru : ListLru} {nid : Nat} {na : NodeArray}
    {tbl : Nat → LruOne} (hna : lru.node = some na)
    (hmem : na.has_memcg_lrus = true)
    (htbl : (na.elems nid).memcg_lrus = some tbl) :
    ∀ is : List Nat, arrayWalkIdx lru nid is =
      .ok (catLists (is.map (fun i =>
        if (tbl i).list.isEmpty then [] else (tbl i).list))) := by
  intro is
  induction is with
  | nil => rfl
  | cons i rest ih => simp [arrayWalkIdx, hna, hmem, htbl, ih, catLists]

theorem arrayWalkIdx_ok_conds {lru : ListLru} {nid i : Nat} {rest : List Nat}
    {r : List Nat} (h : arrayWalkIdx lru nid (i :: rest) = .ok r) :
    ∃ na tbl, lru.node = some na ∧ na.has_memcg_lrus = true ∧
      (na.elems nid).memcg_lrus = some tbl := by
  cases hna : lru.node with
  | none => simp [arrayWalkIdx, hna] at h
  | some na =>
    by_cases hm : na.has_memcg_lrus
    · cases htbl : (na.elems nid).memcg_lrus with
      | none => simp [arrayWalkIdx, hna, hm, htbl] at h
      | some tbl => exact ⟨na, tbl, rfl, hm, htbl⟩
    · simp [arrayWalkIdx, hna, hm] at h

theorem mem_if_isEmpty {li : List Nat} {e : Nat}
    (h : e ∈ (if li.isEmpty then ([] : List Nat) else li)) :
    li.isEmpty = false ∧ e ∈ li := by
  by_cases hE : li.isEmpty
  · simp [hE] at h
  · exact ⟨by simpa using hE, by simpa [hE] using h⟩

/-! ## Characterization lemmas for the two traversal functions -/

theorem iter_one_offline {p : Prog} {m : Int} {n : Nat} {lru : ListLru}
    (h : node_state p n = false) :
    list_lru_from_memcg_node_for_each_entry p m n lru = .ok [] := by
  simp [list_lru_from_memcg_node_for_each_entry, h]

theorem iter_one_sparse {p : Prog} {m : Int} {n : Nat} {lru : ListLru}
    {xa : List (Nat × ListLruMemcg)} (hn : node_state p n = true)
    (ha : memcgAwareCheck lru = .ok true) (hx : hasExtOrXa lru = true)
    (hg : getXa lru = .ok xa) :
    list_lru_from_memcg_node_for_each_entry p m n lru =
      match xa_load xa m with
      | none => .ok []
      | some memcg =>
        if 0 < (memcg.node n).nr_items then .ok (memcg.node n).list
        else .ok [] := by
  simp [list_lru_from_memcg_node_for_each_entry, hn, ha, hx, hg]

theorem iter_one_array {p : Prog} {m : Int} {n : Nat} {lru : ListLru}
    (hn : node_state p n = true) (ha : memcgAwareCheck lru = .ok true)
    (hx : hasExtOrXa lru = false) :
    list_lru_from_memcg_node_for_each_entry p m n lru =
      if 0 ≤ m ∧ m < (p.memcg_nr_cache_ids : Int) then
        match lru.node with
        | none => .error (.missingField "node")
        | some na =>
          if na.has_memcg_lrus then
            match (na.elems n).memcg_lrus with
            | none => .error .nullDeref
            | some tbl =>
              if (tbl m.toNat).list.isEmpty then .ok []
              else .ok (tbl m.toNat).list
          else .error (.missingField "memcg_lrus")
      else .ok [] := by
  simp [list_lru_from_memcg_node_for_each_entry, hn, ha, hx]

theorem iter_one_plain {p : Prog} {m : Int} {n : Nat} {lru : ListLru}
    (hn : node_state p n = true) (ha : memcgAwareCheck lru = .ok false) :
    list_lru_from_memcg_node_for_each_entry p m n lru = plainNodeList lru n := by
  simp [list_lru_from_memcg_node_for_each_entry, hn, ha]

theorem iter_one_sparse_none {p : Prog} {m : Int} {n : Nat} {lru : ListLru}
    {xa : List (Nat × ListLruMemcg)} (hn : node_state p n = true)
    (ha : memcgAwareCheck lru = .ok true) (hx : hasExtOrXa lru = true)
    (hg : getXa lru = .ok xa) (hload : xa_load xa m = none) :
    list_lru_from_memcg_node_for_each_entry p m n lru = .ok [] := by
  rw [iter_one_sparse hn ha hx hg, hload]

theorem iter_one_sparse_some {p : Prog} {m : Int} {n : Nat} {lru : ListLru}
    {xa : List (Nat × ListLruMemcg)} {g : ListLruMemcg}
    (hn : node_state p n = true) (ha : memcgAwareCheck lru = .ok true)
    (hx : hasExtOrXa lru = true) (hg : getXa lru = .ok xa)
    (hload : xa_load xa m = some g) :
    list_lru_from_memcg_node_for_each_entry p m n lru =
      if 0 < (g.node n).nr_items then .ok (g.node n).list else .ok [] := by
  rw [iter_one_sparse hn ha hx hg, hload]

theorem iter_one_array_node_none {p : Prog} {m : Int} {n : Nat} {lru : ListLru}
    (hn : node_state p n = true) (ha : memcgAwareCheck lru = .ok true)
    (hx : hasExtOrXa lru = false)
    (hb : 0 ≤ m ∧ m < (p.memcg_nr_cache_ids : Int)) (hna : lru.node = none) :
    list_lru_from_memcg_node_for_each_entry p m n lru =
      .error (.missingField "node") := by
  rw [iter_one_array hn ha hx, if_pos hb, hna]

theorem iter_one_array_nomm {p : Prog} {m : Int} {n : Nat} {lru : ListLru}
    {na : NodeArray} (hn : node_state p n = true)
    (ha : memcgAwareCheck lru = .ok true) (hx : hasExtOrXa lru = false)
    (hb : 0 ≤ m ∧ m < (p.memcg_nr_cache_ids : Int)) (hna : lru.node = some na)
    (hmm : na.has_memcg_lrus = false) :
    list_lru_from_memcg_node_for_each_entry p m n lru =
      .error (.missingField "memcg_lrus") := by
  rw [iter_one_array hn ha hx, if_pos hb, hna]
  simp [hmm]

theorem iter_one_array_tbl_none {p : Prog} {m : Int} {n : Nat} {lru : ListLru}
    {na : NodeArray} (hn : node_state p n = true)
    (ha : memcgAwareCheck lru = .ok true) (hx : hasExtOrXa lru = false)
    (hb : 0 ≤ m ∧ m < (p.memcg_nr_cache_ids : Int)) (hna : lru.node = some na)
    (hmm : na.has_memcg_lrus = true)
    (htbl : (na.elems n).memcg_lrus = none) :
    list_lru_from_memcg_node_for_each_entry p m n lru = .error .nullDeref := by
  rw [iter_one_array hn ha hx, if_pos hb, hna]
  simp [hmm, htbl]

theorem iter_one_array_tbl {p : Prog} {m : Int} {n : Nat} {lru : ListLru}
    {na : NodeArray} {tbl : Nat → LruOne} (hn : node_state p n = true)
    (ha : memcgAwareCheck lru = .ok true) (hx : hasExtOrXa lru = false)
    (hb : 0 ≤ m ∧ m < (p.memcg_nr_cache_ids : Int)) (hna : lru.node = some na)
    (hmm : na.has_memcg_lrus = true)
    (htbl : (na.elems n).memcg_lrus = some tbl) :
    list_lru_from_memcg_node_for_each_entry p m n lru =
      if (tbl m.toNat).list.isEmpty then .ok []
      else .ok (tbl m.toNat).list := by
  rw [iter_one_array hn ha hx, if_pos hb, hna]
  simp [hmm, htbl]

theorem layout_sparse {p : Prog} {lru : ListLru} {xa : List (Nat × ListLruMemcg)}
    (ha : memcgAwareCheck lru = .ok true) (hx : hasExtOrXa lru = true)
    (hg : getXa lru = .ok xa) :
    layoutNodeFn p lru = .ok (fun nid => .ok (walkXaNode xa nid)) := by
  simp [layoutNodeFn, ha, hx, hg]

theorem layout_array {p : Prog} {lru : ListLru}
    (ha : memcgAwareCheck lru = .ok true) (hx : hasExtOrXa lru = false) :
    layoutNodeFn p lru =
      .ok (fun nid => arrayWalkIdx lru nid (List.range p.memcg_nr_cache_ids)) := by
  simp [layoutNodeFn, ha, hx]

theorem layout_plain {p : Prog} {lru : ListLru}
    (ha : memcgAwareCheck lru = .ok false) :
    layoutNodeFn p lru = .ok (fun nid => plainNodeList lru nid) := by
  simp [layoutNodeFn, ha]

theorem for_each_fold {p : Prog} {lru : ListLru}
    {f : Nat → Except LruErr (List Nat)} (h : layoutNodeFn p lru = .ok f) :
    list_lru_for_each_entry p lru = foldNodes f (for_each_online_node p) := by
  simp [list_lru_for_each_entry, h]

/-! ## Concrete instances used by witnesses and counterexamples -/

/-- A program state with no online node at all. -/
def progOffline : Prog := ⟨0, fun _ => false, 4⟩

/-- A program state with the single online node 0 and 4 memcg cache ids. -/
def progOn1 : Prog := ⟨1, fun _ => true, 4⟩

/-- An LRU view whose struct type exposes none of the probed members. -/
def lruEmptyShape : ListLru := ⟨none, none, none, none⟩

/-- A non-memcg-aware LRU: `memcg_aware` is false, the per-node array has no
`memcg_lrus` member, and node 0's plain list holds entry 5. -/
def lruPlainW : ListLru :=
  ⟨some false, none, none, some ⟨false, fun _ => ⟨none, ⟨1, [5]⟩⟩⟩⟩

/-- A pre-v5.13 array-layout LRU whose sublists are all empty. -/
def lruArrW : ListLru :=
  ⟨some true, none, none, some ⟨true, fun _ => ⟨some (fun _ => ⟨0, []⟩), ⟨0, []⟩⟩⟩⟩

/-- A memcg-aware LRU whose type shape matches no known layout: it claims
memcg awareness but exposes neither the xarray nor a per-node array. -/
def lruAwareNoLayout : ListLru := ⟨some true, none, none, none⟩

/-! ## Claim C2 -/

/-- C2: `list_lru_for_each_entry` is node-major: the online nodes are visited
in strictly ascending node-id order, and the yielded sequence is the
concatenation of per-node blocks in that order (so entries of node `i` never
appear after entries of node `j > i`).  Within a node, the per-node block
`nodeEntries` is, by the layout dispatch, the xarray walked in native order
(sparse-map layout), the memcg array walked by ascending index (array
layout), or the node's single list — entries of one sublist in native list
order in all cases. -/
theorem c2_node_major_order (p : Prog) (lru : ListLru) (l : List Nat)
    (h : list_lru_for_each_entry p lru = .ok l) :
    List.Sorted (· < ·) (for_each_online_node p) ∧
    ∃ g : Nat → List Nat,
      (∀ n ∈ for_each_online_node p, nodeEntries p lru n = .ok (g n)) ∧
      l = catLists ((for_each_online_node p).map g) := by
  refine ⟨for_each_online_node_sorted p, ?_⟩
  cases hlf : layoutNodeFn p lru with
  | error e => simp [list_lru_for_each_entry, hlf] at h
  | ok f =>
    have hfold : foldNodes f (for_each_online_node p) = .ok l := by
      simpa [list_lru_for_each_entry, hlf] using h
    obtain ⟨g, hg, rfl⟩ := foldNodes_ok_decomp f _ _ hfold
    exact ⟨g, fun n hn => by simp [nodeEntries, hlf, hg n hn], rfl⟩

/-- Witness for C2 on a concrete two-entry single-node LRU. -/
theorem c2_node_major_order_witness :
    List.Sorted (· < ·) (for_each_online_node progOn1) ∧
    ∃ g : Nat → List Nat,
      (∀ n ∈ for_each_online_node progOn1,
        nodeEntries progOn1 lruPlainW n = .ok (g n)) ∧
      [5] = catLists ((for_each_online_node progOn1).map g) :=
  c2_node_major_order progOn1 lruPlainW [5] rfl

/-! ## Claim C3 -/

/-- C3: `list_lru_from_memcg_node_for_each_entry` with an offline node id
returns the empty sequence (an `.ok`, never an `.error`), and in the
pre-v5.13 array layout a cgroup index outside `[0, memcg_nr_cache_ids)`
likewise returns the empty sequence. -/
theorem c3_offline_or_out_of_range (p : Prog) (lru : ListLru) (m : Int) (n : Nat) :
    (node_state p n = false →
      list_lru_from_memcg_node_for_each_entry p m n lru = .ok []) ∧
    (memcgAwareCheck lru = .ok true → hasExtOrXa lru = false →
      (m < 0 ∨ (p.memcg_nr_cache_ids : Int) ≤ m) →
      list_lru_from_memcg_node_for_each_entry p m n lru = .ok []) := by
  constructor
  · intro h
    exact iter_one_offline h
  · intro ha hx hm
    by_cases hn : node_state p n = true
    · rw [iter_one_array hn ha hx]
      have hnot : ¬(0 ≤ m ∧ m < (p.memcg_nr_cache_ids : Int)) := by omega
      simp [hnot]
    · exact iter_one_offline (by simpa using hn)

/-- Witness for C3: an offline node on a shapeless LRU, and an out-of-range
index (7 ≥ 4) on an array-layout LRU with node 0 online. -/
theorem c3_offline_or_out_of_range_witness :
    list_lru_from_memcg_node_for_each_entry progOffline 3 0 lruEmptyShape = .ok [] ∧
    list_lru_from_memcg_node_for_each_entry progOn1 7 0 lruArrW = .ok [] :=
  ⟨(c3_offline_or_out_of_range progOffline lruEmptyShape 3 0).1 (by decide),
   (c3_offline_or_out_of_range progOn1 lruArrW 7 0).2 rfl rfl (by decide)⟩

/-! ## Claim C9 -/

/-- C9: for a non-memcg-aware LRU and an online node, the cgroup-index
argument does not influence `list_lru_from_memcg_node_for_each_entry`: every
index yields exactly the node's single list, so any two indices give
identical sequences. -/
theorem c9_cgroup_index_ignored (p : Prog) (n : Nat) (lru : ListLru)
    (hn : node_state p n = true) (ha : memcgAwareCheck lru = .ok false) :
    (∀ m : Int,
      list_lru_from_memcg_node_for_each_entry p m n lru = plainNodeList lru n) ∧
    (∀ m₁ m₂ : Int,
      list_lru_from_memcg_node_for_each_entry p m₁ n lru =
        list_lru_from_memcg_node_for_each_entry p m₂ n lru) := by
  have hone : ∀ m : Int,
      list_lru_from_memcg_node_for_each_entry p m n lru = plainNodeList lru n :=
    fun _ => iter_one_plain hn ha
  exact ⟨hone, fun m₁ m₂ => (hone m₁).trans (hone m₂).symm⟩

/-- Witness for C9 on a concrete non-memcg-aware LRU with one entry. -/
theorem c9_cgroup_index_ignored_witness :
    (∀ m : Int, list_lru_from_memcg_node_for_each_entry progOn1 m 0 lruPlainW =
      plainNodeList lruPlainW 0) ∧
    (∀ m₁ m₂ : Int,
      list_lru_from_memcg_node_for_each_entry progOn1 m₁ 0 lruPlainW =
        list_lru_from_memcg_node_for_each_entry progOn1 m₂ 0 lruPlainW) :=
  c9_cgroup_index_ignored progOn1 0 lruPlainW (by decide) rfl

/-! ## Claim C10 -/

/-- C10: the node-online test is evaluated before any probing of the LRU
structure: with an offline node id the call returns the empty sequence
(no error) for every LRU view, and the result does not depend on the LRU at
all — formalized as invariance under replacing the LRU by any other, which
holds even for views whose type shape matches no known layout. -/
theorem c10_offline_before_probing (p : Prog) (m : Int) (n : Nat)
    (lru lru' : ListLru) (h : node_state p n = false) :
    list_lru_from_memcg_node_for_each_entry p m n lru = .ok [] ∧
    list_lru_from_memcg_node_for_each_entry p m n lru =
      list_lru_from_memcg_node_for_each_entry p m n lru' := by
  exact ⟨iter_one_offline h, (iter_one_offline h).trans (iter_one_offline h).symm⟩

/-- Witness for C10: an offline node with a shapeless LRU versus a plain
LRU. -/
theorem c10_offline_before_probing_witness :
    list_lru_from_memcg_node_for_each_entry progOffline 3 0 lruEmptyShape = .ok [] ∧
    list_lru_from_memcg_node_for_each_entry progOffline 3 0 lruEmptyShape =
      list_lru_from_memcg_node_for_each_entry progOffline 3 0 lruPlainW :=
  c10_offline_before_probing progOffline 3 0 lruEmptyShape lruPlainW (by decide)

/-! ## Claim C4 -/

/-- The decision table of §4.1 as a predicate on the probed type shape: a
shape is known when the memcg-awareness probe resolves and the matching
layout's fields are present — sparse-map layout (`ext`/`xa`), pre-v5.13 array
layout (per-node array with the `memcg_lrus` member), or the plain per-node
list for a non-memcg-aware LRU (awareness resolving to false already implies
the per-node array was found).  This definition follows the spec's list of
layout variants; it reuses the source's own probe order. -/
def knownShape (lru : ListLru) : Bool :=
  match memcgAwareCheck lru with
  | .error _ => false
  | .ok true =>
    hasExtOrXa lru ||
      (match lru.node with
       | some na => na.has_memcg_lrus
       | none => false)
  | .ok false => true

/-- C4: on an LRU whose type shape matches none of the known layout variants,
`list_lru_for_each_entry` surfaces an error to the caller instead of
silently defaulting to a layout.  The two side conditions rule out the
degenerate environments in which the traversal loop never runs (a kernel
always has at least one online node, and `memcg_nr_cache_ids` is positive on
any kernel that has the pre-v5.13 array layout). -/
theorem c4_unknown_layout_error (p : Prog) (lru : ListLru)
    (hshape : knownShape lru = false)
    (hnodes : for_each_online_node p ≠ [])
    (hids : 0 < p.memcg_nr_cache_ids) :
    ∃ err, list_lru_for_each_entry p lru = .error err := by
  cases haw : memcgAwareCheck lru with
  | error e => exact ⟨e, by simp [list_lru_for_each_entry, layoutNodeFn, haw]⟩
  | ok b =>
    cases b with
    | false => simp [knownShape, haw] at hshape
    | true =>
      have hx : hasExtOrXa lru = false ∧
          (match lru.node with
           | some na => na.has_memcg_lrus
           | none => false) = false := by
        simpa [knownShape, haw] using hshape
      obtain ⟨n, ns, hcons⟩ := List.exists_cons_of_ne_nil hnodes
      have hrne : List.range p.memcg_nr_cache_ids ≠ [] := by
        simp only [ne_eq, List.range_eq_nil]
        omega
      obtain ⟨i, is, hri⟩ := List.exists_cons_of_ne_nil hrne
      have harr : ∃ err,
          arrayWalkIdx lru n (List.range p.memcg_nr_cache_ids) = .error err := by
        rw [hri]
        cases hna : lru.node with
        | none => exact ⟨.missingField "node", by simp [arrayWalkIdx, hna]⟩
        | some na =>
          have hm : na.has_memcg_lrus = false := by
            have h2 := hx.2
            rw [hna] at h2
            exact h2
          exact ⟨.missingField "memcg_lrus", by simp [arrayWalkIdx, hna, hm]⟩
      obtain ⟨err, herr⟩ := harr
      refine ⟨err, ?_⟩
      rw [for_each_fold (layout_array haw hx.1), hcons]
      simp [foldNodes, herr]

/-- Witness for C4: a view claiming memcg awareness but exposing neither a
sparse map nor a per-node array errors out. -/
theorem c4_unknown_layout_error_witness :
    ∃ err, list_lru_for_each_entry progOn1 lruAwareNoLayout = .error err :=
  c4_unknown_layout_error progOn1 lruAwareNoLayout rfl (by decide) (by decide)

/-! ## Claim C7 -/

/-- A sparse-map memcg group whose node sublists report `nr_items = -5` while
the list itself holds entry 7 (a transiently negative count a crash dump can
contain, since `nr_items` is a signed `long`). -/
def memcgC7 : ListLruMemcg := ⟨fun _ => ⟨-5, [7]⟩⟩

/-- A sparse-map-layout LRU exposing the `xa` member with `memcgC7` at
index 0. -/
def lruC7 : ListLru := ⟨some true, none, some [(0, memcgC7)], none⟩

/-- C7 counterexample: the claim says every sublist with *nonzero* cached
item count is walked, but the source's sparse-map branch tests
`nr_items > 0`: a sublist with the nonzero count `-5` and a non-empty list
yields nothing. -/
theorem c7_counterexample :
    (memcgC7.node 0).nr_items ≠ 0 ∧ (memcgC7.node 0).list = [7] ∧
    memcgAwareCheck lruC7 = .ok true ∧
    list_lru_for_each_entry progOn1 lruC7 = .ok [] :=
  ⟨by decide, rfl, rfl, rfl⟩

/-- C7 amended: in the sparse-map layout `list_lru_for_each_entry` yields
exactly the sublists whose cached item count is positive (`nr_items > 0`),
skipping every sublist with `nr_items ≤ 0` even when its list is non-empty;
in the pre-v5.13 array layout the item count is not consulted at all — the
skip test is list emptiness, which is observationally no filter. -/
theorem c7_amended_skip_condition (p : Prog) (lru : ListLru) :
    (∀ xa, memcgAwareCheck lru = .ok true → hasExtOrXa lru = true →
      getXa lru = .ok xa →
      list_lru_for_each_entry p lru =
        .ok (catLists ((for_each_online_node p).map (fun nid =>
          catLists (xa.map (fun kv =>
            if 0 < (kv.2.node nid).nr_items then (kv.2.node nid).list
            else [])))))) ∧
    (∀ (na : NodeArray) (tbl : Nat → Nat → LruOne),
      memcgAwareCheck lru = .ok true → hasExtOrXa lru = false →
      lru.node = some na → na.has_memcg_lrus = true →
      (∀ nid, (na.elems nid).memcg_lrus = some (tbl nid)) →
      list_lru_for_each_entry p lru =
        .ok (catLists ((for_each_online_node p).map (fun nid =>
          catLists ((List.range p.memcg_nr_cache_ids).map (fun i =>
            if (tbl nid i).list.isEmpty then [] else (tbl nid i).list)))))) := by
  constructor
  · intro xa ha hx hgx
    rw [for_each_fold (layout_sparse ha hx hgx)]
    exact foldNodes_ok_pointwise _ (fun nid => walkXaNode xa nid) _
      (fun _ _ => rfl)
  · intro na tbl ha hx hna hm htbl
    rw [for_each_fold (layout_array ha hx)]
    exact foldNodes_ok_pointwise _
      (fun nid => catLists ((List.range p.memcg_nr_cache_ids).map (fun i =>
        if (tbl nid i).list.isEmpty then [] else (tbl nid i).list))) _
      (fun n _ => arrayWalkIdx_ok_of hna hm (htbl n) _)

/-- Witness for the amended C7: the `-5`-count sublist is skipped, i.e. the
whole walk is the empty concatenation. -/
theorem c7_amended_skip_condition_witness :
    list_lru_for_each_entry progOn1 lruC7 =
      .ok (catLists ((for_each_online_node progOn1).map (fun nid =>
        catLists ([(0, memcgC7)].map (fun kv =>
          if 0 < (kv.2.node nid).nr_items then (kv.2.node nid).list
          else []))))) :=
  (c7_amended_skip_condition progOn1 lruC7).1 [(0, memcgC7)] rfl rfl rfl

/-! ## Concrete page states for the ownership resolver claims -/

/-- A memcg record with `kmemcg_id = 3`. -/
def memcgW : MemCgroup := ⟨3⟩

/-- A slab cache with slot stride 16 (object size also 16) whose legacy
accounting chain reaches `kmemcg_id = 2`. -/
def scW : SlabCache := ⟨16, 16, ⟨⟨2⟩⟩⟩

/-- A page whose accounting word 9 carries the `MEMCG_DATA_OBJCGS` tag
(array base 8) and which exposes `slab_cache` directly. -/
def pageTagW : Page := ⟨some 9, none, some (some scW), 0, none⟩

/-- Page state around `pageTagW`; every `obj_cgroup` slot points at
`memcgW`. -/
def stTag : PageState :=
  ⟨fun _ => 0, fun _ => 0, fun _ => pageTagW, fun _ => 0, fun _ _ => some memcgW, 4⟩

/-- A page whose accounting word is exactly `MEMCG_DATA_KMEM = 2` (kmem-style
accounting, low tag bit clear). -/
def pageKmemW : Page := ⟨some 2, none, some (some scW), 0, none⟩

/-- Page state around `pageKmemW`. -/
def stKmem : PageState :=
  ⟨fun _ => 0, fun _ => 0, fun _ => pageKmemW, fun _ => 0, fun _ _ => some memcgW, 4⟩

/-! ## Claim C5 -/

/-- C5: decoding of the tagged accounting word.  If the low
`MEMCG_DATA_OBJCGS` bit is clear — in particular for the kmem-style tag value
2 — the function returns the `-1` sentinel and never reads the per-object
array (the result is invariant under replacing the array contents
entirely).  If the bit is set, the word minus the tag is used as the base
address of the per-object cgroup array that is then indexed. -/
theorem c5_tag_decode (st : PageState) (kvm w : Nat) (sc : SlabCache)
    (h : readMemcgData (st.pages (st.compound_head (st.virt_to_page kvm))) = some w) :
    (w &&& MEMCG_DATA_OBJCGS = 0 →
      ∀ f, list_lru_kmem_to_memcgidx { st with objcg_memcg := f } kvm = .ok (-1)) ∧
    (w &&& MEMCG_DATA_OBJCGS ≠ 0 →
      (st.pages (st.compound_head (st.virt_to_page kvm))).slab_cache = some (some sc) →
      list_lru_kmem_to_memcgidx st kvm =
        match st.objcg_memcg (w - MEMCG_DATA_OBJCGS)
            (Int.tdiv ((kvm : Int) -
              (st.page_to_virt (st.compound_head (st.virt_to_page kvm)) : Int))
              (sc.size : Int)) with
        | none => .ok (-1)
        | some g => .ok g.kmemcg_id) := by
  constructor
  · intro h0 f
    have h' : readMemcgData
        (({ st with objcg_memcg := f } : PageState).pages
          (({ st with objcg_memcg := f } : PageState).compound_head
            (({ st with objcg_memcg := f } : PageState).virt_to_page kvm))) = some w := h
    simp [list_lru_kmem_to_memcgidx, h', h0]
  · intro h1 hsc
    simp [list_lru_kmem_to_memcgidx, h, h1, taggedCase, hsc, objSlot]

/-- Witness for C5: the kmem-tagged page resolves to `-1` whatever the
per-object arrays hold, and the objcgs-tagged page resolves through the
array at base 8, slot 6, to `kmemcg_id = 3`. -/
theorem c5_tag_decode_witness :
    (∀ f, list_lru_kmem_to_memcgidx { stKmem with objcg_memcg := f } 100 = .ok (-1)) ∧
    list_lru_kmem_to_memcgidx stTag 100 = .ok 3 := by
  refine ⟨(c5_tag_decode stKmem 100 2 scW rfl).1 (by decide), ?_⟩
  have h := (c5_tag_decode stTag 100 9 scW rfl).2 (by decide) rfl
  rw [h]
  rfl

/-! ## Claim C6 -/

/-- A slab cache whose slot stride `size` (16) differs from its
`object_size` (8), as happens with slab metadata/red-zoning. -/
def scC6 : SlabCache := ⟨16, 8, ⟨⟨2⟩⟩⟩

/-- A page tagged with an `obj_cgroup` array at base 4096 whose slab cache is
`scC6`. -/
def pageC6 : Page := ⟨some 4097, none, some (some scC6), 0, none⟩

/-- Page state around `pageC6` in which slot `i` of every `obj_cgroup` array
references a memcg whose `kmemcg_id` is `i` itself, so the returned index
reveals exactly which slot was read. -/
def stC6 : PageState :=
  ⟨fun _ => 0, fun _ => 0, fun _ => pageC6, fun _ => 0, fun _ idx => some ⟨idx⟩, 4⟩

/-- C6 counterexample: the claim computes the slot as
`(object_address − page_base) / slab_cache.object_size`, but the source
divides by `slab_cache.size`.  With stride 16, `object_size` 8 and offset 16
the slot actually read is 1 (revealed by the identity `obj_cgroup` array),
while the claim's formula gives 2. -/
theorem c6_counterexample :
    list_lru_kmem_to_memcgidx stC6 16 = .ok 1 ∧
    Int.tdiv ((16 : Int) - (stC6.page_to_virt 0 : Int)) (scC6.object_size : Int) = 2 ∧
    list_lru_kmem_to_memcgidx stC6 16 ≠
      .ok (Int.tdiv ((16 : Int) - (stC6.page_to_virt 0 : Int))
        (scC6.object_size : Int)) := by
  refine ⟨rfl, rfl, ?_⟩
  intro h
  have h' : (1 : Int) = 2 := by
    have e1 : list_lru_kmem_to_memcgidx stC6 16 = .ok 1 := rfl
    have e2 : Int.tdiv ((16 : Int) - (stC6.page_to_virt 0 : Int))
        (scC6.object_size : Int) = 2 := rfl
    rw [e1, e2] at h
    injection h
  exact absurd h' (by decide)

/-- C6 amended: in the per-object-array branch (here through the v5.17
`struct slab` path) the slot index used to index the per-object cgroup array
is `(object_address − page_base_virtual_address) / slab_cache.size` with C
truncating integer division — the slot stride `size`, not `object_size`. -/
theorem c6_slot_index_amended (st : PageState) (kvm w : Nat) (sc : SlabCache)
    (h : readMemcgData (st.pages (st.compound_head (st.virt_to_page kvm))) = some w)
    (hw : w &&& MEMCG_DATA_OBJCGS ≠ 0)
    (hnm : (st.pages (st.compound_head (st.virt_to_page kvm))).slab_cache = none)
    (hflag : (st.pages (st.compound_head (st.virt_to_page kvm))).flags &&&
      (1 <<< st.pg_slab) ≠ 0)
    (hsl : (st.pages (st.compound_head (st.virt_to_page kvm))).slab_slab_cache =
      some sc) :
    list_lru_kmem_to_memcgidx st kvm =
      match st.objcg_memcg (w - MEMCG_DATA_OBJCGS)
          (Int.tdiv ((kvm : Int) -
            (st.page_to_virt (st.compound_head (st.virt_to_page kvm)) : Int))
            (sc.size : Int)) with
      | none => .ok (-1)
      | some g => .ok g.kmemcg_id := by
  simp [list_lru_kmem_to_memcgidx, h, hw, taggedCase, hnm, hflag, hsl, objSlot]

/-- A v5.17-style page: no `slab_cache` member, `PG_slab` (bit 4) set in
`flags`, slab cache reachable through the `struct slab` view. -/
def pageC6b : Page := ⟨some 4097, none, none, 16, some scC6⟩

/-- Page state around `pageC6b` with the identity `obj_cgroup` array. -/
def stC6b : PageState :=
  ⟨fun _ => 0, fun _ => 0, fun _ => pageC6b, fun _ => 0, fun _ idx => some ⟨idx⟩, 4⟩

/-- Witness for the amended C6: offset 48 with stride 16 reads slot 3. -/
theorem c6_slot_index_amended_witness :
    list_lru_kmem_to_memcgidx stC6b 48 = .ok 3 := by
  have h := c6_slot_index_amended stC6b 48 4097 scC6 rfl (by decide) rfl
    (by decide) rfl
  rw [h]
  rfl

/-! ## Claim C8 -/

/-- C8: the `-1` sentinel is a normal `.ok` result (never an exception) in
each listed case: (1) slab-descriptor-split revision with the page's
`PG_slab` flag unset; (2) the indexed per-object slot holds a null memcg
reference; (3) pre-tagged-pointer layout with a null slab-cache reference;
and (4) otherwise the pre-tagged-pointer layout returns the id reached via
the cache's legacy `memcg_params` chain. -/
theorem c8_not_found_cases (st : PageState) (kvm : Nat) :
    (∀ w, readMemcgData (st.pages (st.compound_head (st.virt_to_page kvm))) = some w →
      w &&& MEMCG_DATA_OBJCGS ≠ 0 →
      (st.pages (st.compound_head (st.virt_to_page kvm))).slab_cache = none →
      (st.pages (st.compound_head (st.virt_to_page kvm))).flags &&&
        (1 <<< st.pg_slab) = 0 →
      list_lru_kmem_to_memcgidx st kvm = .ok (-1)) ∧
    (∀ w sc,
      readMemcgData (st.pages (st.compound_head (st.virt_to_page kvm))) = some w →
      w &&& MEMCG_DATA_OBJCGS ≠ 0 →
      (st.pages (st.compound_head (st.virt_to_page kvm))).slab_cache =
        some (some sc) →
      st.objcg_memcg (w - MEMCG_DATA_OBJCGS)
        (Int.tdiv ((kvm : Int) -
          (st.page_to_virt (st.compound_head (st.virt_to_page kvm)) : Int))
          (sc.size : Int)) = none →
      list_lru_kmem_to_memcgidx st kvm = .ok (-1)) ∧
    (readMemcgData (st.pages (st.compound_head (st.virt_to_page kvm))) = none →
      (st.pages (st.compound_head (st.virt_to_page kvm))).slab_cache = some none →
      list_lru_kmem_to_memcgidx st kvm = .ok (-1)) ∧
    (∀ sc,
      readMemcgData (st.pages (st.compound_head (st.virt_to_page kvm))) = none →
      (st.pages (st.compound_head (st.virt_to_page kvm))).slab_cache =
        some (some sc) →
      list_lru_kmem_to_memcgidx st kvm = .ok sc.memcg_params.memcg.kmemcg_id) := by
  refine ⟨?_, ?_, ?_, ?_⟩
  · intro w h hw hnm hflag
    simp [list_lru_kmem_to_memcgidx, h, hw, taggedCase, hnm, hflag]
  · intro w sc h hw hsc hslot
    simp [list_lru_kmem_to_memcgidx, h, hw, taggedCase, hsc, objSlot, hslot]
  · intro h hsc
    simp [list_lru_kmem_to_memcgidx, h, hsc]
  · intro sc h hsc
    simp [list_lru_kmem_to_memcgidx, h, hsc]

/-- A tag-set page with no `slab_cache` member and `PG_slab` clear. -/
def pageNoSlab : Page := ⟨some 9, none, none, 0, none⟩

/-- Page state around `pageNoSlab`. -/
def stNoSlab : PageState :=
  ⟨fun _ => 0, fun _ => 0, fun _ => pageNoSlab, fun _ => 0, fun _ _ => some memcgW, 4⟩

/-- Page state around `pageTagW` whose `obj_cgroup` slots all hold a null
memcg reference. -/
def stNullSlot : PageState :=
  ⟨fun _ => 0, fun _ => 0, fun _ => pageTagW, fun _ => 0, fun _ _ => none, 4⟩

/-- A pre-v5.13 page (no tagged word) whose `slab_cache` pointer is NULL. -/
def pageLegacyNull : Page := ⟨none, none, some none, 0, none⟩

/-- Page state around `pageLegacyNull`. -/
def stLegacyNull : PageState :=
  ⟨fun _ => 0, fun _ => 0, fun _ => pageLegacyNull, fun _ => 0, fun _ _ => none, 4⟩

/-- A pre-v5.13 page with a non-null `slab_cache` (legacy chain id 2). -/
def pageLegacy : Page := ⟨none, none, some (some scW), 0, none⟩

/-- Page state around `pageLegacy`. -/
def stLegacy : PageState :=
  ⟨fun _ => 0, fun _ => 0, fun _ => pageLegacy, fun _ => 0, fun _ _ => none, 4⟩

/-- Witness for C8: each of the four cases at a concrete page state. -/
theorem c8_not_found_cases_witness :
    list_lru_kmem_to_memcgidx stNoSlab 100 = .ok (-1) ∧
    list_lru_kmem_to_memcgidx stNullSlot 100 = .ok (-1) ∧
    list_lru_kmem_to_memcgidx stLegacyNull 100 = .ok (-1) ∧
    list_lru_kmem_to_memcgidx stLegacy 100 = .ok 2 :=
  ⟨(c8_not_found_cases stNoSlab 100).1 9 rfl (by decide) rfl (by decide),
   (c8_not_found_cases stNullSlot 100).2.1 9 scW rfl (by decide) rfl rfl,
   (c8_not_found_cases stLegacyNull 100).2.2.1 rfl rfl,
   (c8_not_found_cases stLegacy 100).2.2.2 scW rfl rfl⟩

/-! ## Claim C1 -/

/-- C1: completeness of the restricted iteration with respect to the full
one.  `hnd` is the xarray invariant (map keys are unique); `hown` is the
kernel consistency invariant gluing the ownership resolver to the traversal:
on a memcg-aware LRU, every entry of the `(m, n)` sublist resolves to memcg
index `m`.  Conclusions: (forward) every entry of `list_lru_for_each_entry`
whose ownership resolves to `m ≠ -1` is yielded by
`list_lru_from_memcg_node_for_each_entry` at `m` and the online node whose
sublist holds it; (converse) every entry the restricted iteration yields for
any `(m, n)` is yielded by the full iteration. -/
theorem c1_completeness (p : Prog) (st : PageState) (lru : ListLru) (l : List Nat)
    (hall : list_lru_for_each_entry p lru = .ok l)
    (hnd : ∀ xa, getXa lru = .ok xa → (xa.map Prod.fst).Nodup)
    (hown : memcgAwareCheck lru = .ok true →
      ∀ (m : Int) (n : Nat) (le : List Nat),
        list_lru_from_memcg_node_for_each_entry p m n lru = .ok le →
        ∀ e ∈ le, list_lru_kmem_to_memcgidx st e = .ok m) :
    (∀ e ∈ l, ∀ m : Int, list_lru_kmem_to_memcgidx st e = .ok m → m ≠ -1 →
      ∃ n ∈ for_each_online_node p, ∃ le,
        list_lru_from_memcg_node_for_each_entry p m n lru = .ok le ∧ e ∈ le) ∧
    (∀ (m : Int) (n : Nat) (le : List Nat),
      list_lru_from_memcg_node_for_each_entry p m n lru = .ok le →
      ∀ e ∈ le, e ∈ l) := by
  cases haw : memcgAwareCheck lru with
  | error e => simp [list_lru_for_each_entry, layoutNodeFn, haw] at hall
  | ok aware =>
    cases aware with
    | false =>
      have hfold : foldNodes (fun nid => plainNodeList lru nid)
          (for_each_online_node p) = .ok l := by
        rw [← for_each_fold (layout_plain haw)]
        exact hall
      constructor
      · intro e he m _ _
        obtain ⟨n, hn, b, hfb, heb⟩ := foldNodes_mem _ _ _ hfold he
        refine ⟨n, hn, b, ?_, heb⟩
        rw [iter_one_plain ((node_state_iff_mem p n).mpr hn) haw]
        exact hfb
      · intro m n le hle e hel
        by_cases hnst : node_state p n = true
        · rw [iter_one_plain hnst haw] at hle
          exact foldNodes_block_subset _ _ _ hfold
            ((node_state_iff_mem p n).mp hnst) hle e hel
        · rw [iter_one_offline (by simpa using hnst)] at hle
          have hnil : ([] : List Nat) = le := by injection hle
          rw [← hnil] at hel
          cases hel
    | true =>
      by_cases hx : hasExtOrXa lru = true
      · cases hgx : getXa lru with
        | error err =>
          simp [list_lru_for_each_entry, layoutNodeFn, haw, hx, hgx] at hall
        | ok xa =>
          have hndxa := hnd xa hgx
          have hfold : foldNodes (fun nid => .ok (walkXaNode xa nid))
              (for_each_online_node p) = .ok l := by
            rw [← for_each_fold (layout_sparse haw hx hgx)]
            exact hall
          constructor
          · intro e he m hm _
            obtain ⟨n, hn, b, hfb, heb⟩ := foldNodes_mem _ _ _ hfold he
            have hfb' : Except.ok (ε := LruErr) (walkXaNode xa n) = .ok b := hfb
            have hb : walkXaNode xa n = b := by injection hfb'
            rw [← hb] at heb
            obtain ⟨⟨k, g⟩, hkv, hpos0, hel0⟩ := mem_walkXaNode.mp heb
            have hpos : 0 < (g.node n).nr_items := hpos0
            have hel : e ∈ (g.node n).list := hel0
            have hload := xa_load_of_mem_nodup hndxa hkv
            have hnst := (node_state_iff_mem p n).mpr hn
            have hiter : list_lru_from_memcg_node_for_each_entry p (k : Int) n lru
                = .ok (g.node n).list := by
              rw [iter_one_sparse_some hnst haw hx hgx hload, if_pos hpos]
            have hk := hown haw (k : Int) n _ hiter e hel
            have hmk : m = (k : Int) := by
              rw [hm] at hk
              injection hk
            refine ⟨n, hn, (g.node n).list, ?_, hel⟩
            rw [hmk]
            exact hiter
          · intro m n le hle e hel
            by_cases hnst : node_state p n = true
            · cases hload : xa_load xa m with
              | none =>
                rw [iter_one_sparse_none hnst haw hx hgx hload] at hle
                have hnil : ([] : List Nat) = le := by injection hle
                rw [← hnil] at hel
                cases hel
              | some g =>
                rw [iter_one_sparse_some hnst haw hx hgx hload] at hle
                by_cases hpos : 0 < (g.node n).nr_items
                · rw [if_pos hpos] at hle
                  have hleq : (g.node n).list = le := by injection hle
                  obtain ⟨k, hkmem, _⟩ := xa_load_mem hload
                  have hmemwalk : e ∈ walkXaNode xa n :=
                    mem_walkXaNode.mpr ⟨(k, g), hkmem, hpos, by
                      show e ∈ (g.node n).list
                      rw [hleq]
                      exact hel⟩
                  exact foldNodes_block_subset _ _ _ hfold
                    ((node_state_iff_mem p n).mp hnst) rfl e hmemwalk
                · rw [if_neg hpos] at hle
                  have hnil : ([] : List Nat) = le := by injection hle
                  rw [← hnil] at hel
                  cases hel
            · rw [iter_one_offline (by simpa using hnst)] at hle
              have hnil : ([] : List Nat) = le := by injection hle
              rw [← hnil] at hel
              cases hel
      · have hxf : hasExtOrXa lru = false := by simpa using hx
        have hfold : foldNodes
            (fun nid => arrayWalkIdx lru nid (List.range p.memcg_nr_cache_ids))
            (for_each_online_node p) = .ok l := by
          rw [← for_each_fold (layout_array haw hxf)]
          exact hall
        constructor
        · intro e he m hm _
          obtain ⟨n, hn, b, hfb, heb⟩ := foldNodes_mem _ _ _ hfold he
          have hfb' : arrayWalkIdx lru n (List.range p.memcg_nr_cache_ids)
              = .ok b := hfb
          cases hr : List.range p.memcg_nr_cache_ids with
          | nil =>
            rw [hr] at hfb'
            have hnil : ([] : List Nat) = b := by injection hfb'
            rw [← hnil] at heb
            cases heb
          | cons i0 is0 =>
            rw [hr] at hfb'
            obtain ⟨na, tbl, hna, hmm, htbl⟩ := arrayWalkIdx_ok_conds hfb'
            have hok := arrayWalkIdx_ok_of hna hmm htbl
              (List.range p.memcg_nr_cache_ids)
            rw [hok] at hfb
            have hb : catLists ((List.range p.memcg_nr_cache_ids).map (fun i =>
                if (tbl i).list.isEmpty then [] else (tbl i).list)) = b := by
              injection hfb
            rw [← hb] at heb
            obtain ⟨s, hs, hes⟩ := mem_catLists.mp heb
            obtain ⟨i, hi, rfl⟩ := List.mem_map.mp hs
            obtain ⟨hne, hel⟩ := mem_if_isEmpty hes
            have hiN : i < p.memcg_nr_cache_ids := List.mem_range.mp hi
            have hnst := (node_state_iff_mem p n).mpr hn
            have hbound : 0 ≤ (i : Int) ∧
                (i : Int) < (p.memcg_nr_cache_ids : Int) := by
              constructor
              · exact Int.natCast_nonneg i
              · exact_mod_cast hiN
            have hiter : list_lru_from_memcg_node_for_each_entry p (i : Int) n lru
                = .ok (tbl i).list := by
              rw [iter_one_array hnst haw hxf, if_pos hbound, hna]
              simp [hmm, htbl, hne]
            have hk := hown haw (i : Int) n _ hiter e hel
            have hmk : m = (i : Int) := by
              rw [hm] at hk
              injection hk
            refine ⟨n, hn, (tbl i).list, ?_, hel⟩
            rw [hmk]
            exact hiter
        · intro m n le hle e hel
          by_cases hnst : node_state p n = true
          · by_cases hbound : 0 ≤ m ∧ m < (p.memcg_nr_cache_ids : Int)
            · cases hna : lru.node with
              | none =>
                rw [iter_one_array_node_none hnst haw hxf hbound hna] at hle
                exact Except.noConfusion hle
              | some na =>
                by_cases hmm : na.has_memcg_lrus = true
                · cases htbl : (na.elems n).memcg_lrus with
                  | none =>
                    rw [iter_one_array_tbl_none hnst haw hxf hbound hna hmm
                      htbl] at hle
                    exact Except.noConfusion hle
                  | some tbl =>
                    rw [iter_one_array_tbl hnst haw hxf hbound hna hmm
                      htbl] at hle
                    by_cases hne : (tbl m.toNat).list.isEmpty = true
                    · rw [if_pos hne] at hle
                      have hnil : ([] : List Nat) = le := by injection hle
                      rw [← hnil] at hel
                      cases hel
                    · rw [if_neg hne] at hle
                      have hleq : (tbl m.toNat).list = le := by injection hle
                      have hok := arrayWalkIdx_ok_of hna hmm htbl
                        (List.range p.memcg_nr_cache_ids)
                      obtain ⟨hb0, hb1⟩ := hbound
                      have hmem : e ∈ catLists
                          ((List.range p.memcg_nr_cache_ids).map (fun i =>
                            if (tbl i).list.isEmpty then [] else (tbl i).list)) := by
                        apply mem_catLists.mpr
                        refine ⟨(fun i => if (tbl i).list.isEmpty then []
                          else (tbl i).list) m.toNat,
                          List.mem_map_of_mem _ (List.mem_range.mpr (by omega)), ?_⟩
                        show e ∈ if (tbl m.toNat).list.isEmpty then []
                          else (tbl m.toNat).list
                        rw [if_neg hne, hleq]
                        exact hel
                      exact foldNodes_block_subset _ _ _ hfold
                        ((node_state_iff_mem p n).mp hnst) hok e hmem
                · have hmmf : na.has_memcg_lrus = false := by simpa using hmm
                  rw [iter_one_array_nomm hnst haw hxf hbound hna hmmf] at hle
                  exact Except.noConfusion hle
            · rw [iter_one_array hnst haw hxf, if_neg hbound] at hle
              have hnil : ([] : List Nat) = le := by injection hle
              rw [← hnil] at hel
              cases hel
          · rw [iter_one_offline (by simpa using hnst)] at hle
            have hnil : ([] : List Nat) = le := by injection hle
            rw [← hnil] at hel
            cases hel

/-- Witness for C1 on a non-memcg-aware LRU whose single entry 5 resolves
to memcg index 3 through `stTag`: the forward direction produces the node
and sublist containing it. -/
theorem c1_completeness_witness :
    ∃ n ∈ for_each_online_node progOn1, ∃ le,
      list_lru_from_memcg_node_for_each_entry progOn1 3 n lruPlainW = .ok le ∧
      5 ∈ le := by
  refine (c1_completeness progOn1 stTag lruPlainW [5] rfl ?_ ?_).1
    5 (by simp) 3 rfl (by decide)
  · intro xa h
    simp [getXa, lruPlainW] at h
  · intro habs
    simp [memcgAwareCheck, lruPlainW] at habs

end ListLruSpec
